import Mathlib

/-!
A shallow embedding of the pointer-bumping heap allocator in `pb-alloc.c`,
together with theorems settling the specification claims about it.

Memory is modelled as a byte-addressed map `Int → Nat`; the allocator state
carries the three `intptr_t` globals `free_addr`, `start_addr`, `end_addr`
as `Int`.  `size_t` arithmetic that can wrap (the `size + sizeof(header_s)`
total in `malloc` and the `nmemb * size` product in `calloc`) is taken
modulo `2^64`.  The frontier computation
`intptr_t new_free_addr = free_addr + padding + total_size` forms the sum
in `size_t` and converts it back to the signed `intptr_t`; on the LP64
targets this code runs on that conversion is the two's-complement
reduction into `[-2^63, 2^63)`, modelled here by `wrapSigned`, and the
exhaustion check `new_free_addr > end_addr` is the signed comparison on
that reduced value.  Pointer values (`header_ptr`, `block_ptr`) are kept
as the exact integer sums: for every state whose frontier is a valid
`intptr_t` below `2^63 - 24` the cast at the corresponding source lines is
value-preserving, and a store through a pointer outside the mapped region
faults in the program rather than continuing.  The one-field block header
(`header_s { size_t size; }`) is stored as eight little-endian bytes,
exactly as a 64-bit store would lay it out.
-/

namespace PBAlloc

/-- `sizeof(header_s)`: the header holds a single `size_t`, eight bytes. -/
def HEADER_SIZE : Nat := 8

/-- `HEAP_SIZE`: `GB(2)` — two gigabytes of reserved address space. -/
def HEAP_SIZE : Nat := 2 * 1024 * 1024 * 1024

/-- The modulus of `size_t` arithmetic: `2^64`. -/
def SIZE_MOD : Nat := 2 ^ 64

/-- Conversion of a mathematical integer to `intptr_t`: the
implementation-defined two's-complement reduction into `[-2^63, 2^63)`
performed by the conversion of the `size_t` sum at the `new_free_addr`
assignment. -/
def wrapSigned (x : Int) : Int := (x + 2 ^ 63) % 2 ^ 64 - 2 ^ 63

/-- The allocator's global state: the byte memory of the mapped heap region
and the three `intptr_t` globals of `pb-alloc.c`. -/
structure AllocState where
  mem : Int → Nat
  free_addr : Int
  start_addr : Int
  end_addr : Int

/-- `init()`, run at the first call with a successful `mmap` returning the
base address `heap` (a valid mapping, so `heap + HEAP_SIZE` stays in the
pointer range): `start_addr = heap`, `end_addr = heap + HEAP_SIZE`,
`free_addr = heap`; anonymous mappings are zero-filled. -/
def initState (heap : Int) : AllocState :=
  { mem := fun _ => 0
    free_addr := heap
    start_addr := heap
    end_addr := heap + (HEAP_SIZE : Int) }

/-- Store the `n` low-order bytes of `v` little-endian at address `a`. -/
def writeLE (m : Int → Nat) (a : Int) : Nat → Nat → Int → Nat
  | 0, _ => m
  | n + 1, v => writeLE (fun x => if x = a then v % 256 else m x) (a + 1) n (v / 256)

/-- Read `n` bytes little-endian starting at address `a`. -/
def readLE (m : Int → Nat) (a : Int) : Nat → Nat
  | 0 => 0
  | n + 1 => m a + 256 * readLE m (a + 1) n

/-- `memset(dst, c, n)`: fill `n` bytes from `a` with the byte `c`. -/
def memset (m : Int → Nat) (a : Int) (c n : Nat) : Int → Nat :=
  fun x => if a ≤ x ∧ x < a + n then c % 256 else m x

/-- `memcpy(dst, src, n)` for non-overlapping regions. -/
def memcpy (m : Int → Nat) (dst src : Int) (n : Nat) : Int → Nat :=
  fun x => if dst ≤ x ∧ x < dst + n then m (src + (x - dst)) else m x

/-- The padding `malloc` inserts before the header:
`16 - ((free_addr + sizeof(header_s)) % 16)`, normalized from 16 to 0.
The source computes the `%` in `size_t` after converting `free_addr`;
since `16` divides `2^64` this equals the nonnegative `Int.emod` by 16. -/
def padding (s : AllocState) : Int :=
  if 16 - ((s.free_addr + HEADER_SIZE) % 16) = 16 then 0
  else 16 - ((s.free_addr + HEADER_SIZE) % 16)

/-- `total_size = size + sizeof(header_s)`, in `size_t` arithmetic. -/
def total_size (size : Nat) : Nat := (size + HEADER_SIZE) % SIZE_MOD

/-- `header_ptr = (header_s*)(free_addr + padding)`. -/
def header_ptr (s : AllocState) : Int := s.free_addr + padding s

/-- `block_ptr = (void*)(free_addr + padding + sizeof(header_s))`. -/
def block_ptr (s : AllocState) : Int := s.free_addr + padding s + HEADER_SIZE

/-- `intptr_t new_free_addr = free_addr + padding + total_size`: the
`size_t` sum converted to the signed `intptr_t` (two's-complement). -/
def new_free_addr (s : AllocState) (size : Nat) : Int :=
  wrapSigned (s.free_addr + padding s + (total_size size : Int))

/-- `malloc(size)` from `pb-alloc.c`: return `NULL` on `size == 0`; compute
padding, header and block addresses; fail without mutation when the
(signed) bumped frontier compares above `end_addr`; otherwise bump
`free_addr`, write the header (`header_ptr->size = size`) and return
`block_ptr`. -/
def malloc (s : AllocState) (size : Nat) : AllocState × Option Int :=
  if size = 0 then (s, none)
  else if new_free_addr s size > s.end_addr then (s, none)
  else
    ({ s with
        free_addr := new_free_addr s size
        mem := writeLE s.mem (header_ptr s) HEADER_SIZE size },
      some (block_ptr s))

/-- `free(ptr)` from `pb-alloc.c`: only a `DEBUG` print — no state change. -/
def free (s : AllocState) (ptr : Option Int) : AllocState := s

/-- `calloc(nmemb, size)`: `block_size = nmemb * size` in `size_t`
arithmetic, delegate to `malloc`, and `memset` the block to zero when the
allocation succeeded. -/
def calloc (s : AllocState) (nmemb size : Nat) : AllocState × Option Int :=
  match (malloc s ((nmemb * size) % SIZE_MOD)).2 with
  | some p =>
      ({ (malloc s ((nmemb * size) % SIZE_MOD)).1 with
          mem := memset (malloc s ((nmemb * size) % SIZE_MOD)).1.mem p 0
            ((nmemb * size) % SIZE_MOD) },
        some p)
  | none => malloc s ((nmemb * size) % SIZE_MOD)

/-- `old_size = old_header->size`: the size recorded in the header at
`ptr - sizeof(header_s)`, read back from its eight little-endian bytes. -/
def old_size (s : AllocState) (p : Int) : Nat :=
  readLE s.mem (p - HEADER_SIZE) HEADER_SIZE

/-- `realloc(ptr, size)` from `pb-alloc.c`: `NULL` pointer delegates to
`malloc`; `size == 0` frees and returns `NULL`; `size ≤ old_size` returns
`ptr` unchanged; otherwise `malloc` a new block and, when that succeeds,
`memcpy` the old `old_size` bytes into it and `free` the old block. -/
def realloc (s : AllocState) (ptr : Option Int) (size : Nat) :
    AllocState × Option Int :=
  match ptr with
  | none => malloc s size
  | some p =>
    if size = 0 then ( free s (some p), none)
    else if size ≤ old_size s p then (s, some p)
    else
      match (malloc s size).2 with
      | some np =>
          ({ (malloc s size).1 with
              mem := memcpy (malloc s size).1.mem np p (old_size s p) },
            some np)
      | none => ((malloc s size).1, none)

/-- The heap-region invariant `start ≤ frontier ≤ end`. -/
def Inv (s : AllocState) : Prop :=
  s.start_addr ≤ s.free_addr ∧ s.free_addr ≤ s.end_addr

/-! ### Concrete states used by the witnesses -/

/-- The state after `malloc(24)` on a fresh heap based at address 0:
`free_addr = 40`, a header recording 24 at address 8, payload at 16. -/
def exSt1 : AllocState := (malloc (initState 0) 24).1

/-- An almost-exhausted heap: 4 bytes left before `end_addr`. -/
def exFull : AllocState := { initState 0 with free_addr := 2 ^ 31 - 4 }

/-- An almost-exhausted heap that still holds a valid block: a header at
address 8 recording size 4, payload at 16. -/
def exGrow : AllocState :=
  { initState 0 with
      free_addr := 2 ^ 31 - 4
      mem := writeLE (fun _ => 0) 8 HEADER_SIZE 4 }

/-! ### Helper lemmas -/

lemma wrapSigned_eq_self (x : Int) (h1 : -(2 ^ 63) ≤ x) (h2 : x < 2 ^ 63) :
    wrapSigned x = x := by
  unfold wrapSigned
  omega

lemma padding_nonneg (s : AllocState) : 0 ≤ padding s := by
  unfold padding
  have h1 : 0 ≤ (s.free_addr + (HEADER_SIZE : Int)) % 16 :=
    Int.emod_nonneg _ (by norm_num)
  have h2 : (s.free_addr + (HEADER_SIZE : Int)) % 16 < 16 :=
    Int.emod_lt_of_pos _ (by norm_num)
  split <;> omega

lemma padding_lt (s : AllocState) : padding s < 16 := by
  unfold padding
  have h1 : 0 ≤ (s.free_addr + (HEADER_SIZE : Int)) % 16 :=
    Int.emod_nonneg _ (by norm_num)
  split <;> omega

lemma block_ptr_aligned (s : AllocState) : block_ptr s % 16 = 0 := by
  unfold block_ptr padding
  have hH : (HEADER_SIZE : Int) = 8 := rfl
  rw [hH]
  split_ifs <;> omega

lemma malloc_none (s : AllocState) (size : Nat)
    (h : (malloc s size).2 = none) : malloc s size = (s, none) := by
  unfold malloc at *
  split_ifs at * <;> simp_all

lemma malloc_spec (s : AllocState) (size : Nat) (p : Int)
    (h : (malloc s size).2 = some p) :
    size ≠ 0 ∧ new_free_addr s size ≤ s.end_addr ∧ p = block_ptr s ∧
      (malloc s size).1 =
        { s with
            free_addr := new_free_addr s size
            mem := writeLE s.mem (header_ptr s) HEADER_SIZE size } := by
  unfold malloc at *
  split_ifs at * <;> simp_all

lemma writeLE_outside (m : Int → Nat) (a : Int) (n v : Nat) (x : Int)
    (hx : x < a ∨ a + n ≤ x) : writeLE m a n v x = m x := by
  induction n generalizing m a v with
  | zero => rfl
  | succ k ih =>
      unfold writeLE
      rw [ih _ _ _ (by push_cast at hx ⊢; omega)]
      have hxa : ¬x = a := by push_cast at hx; omega
      simp [hxa]

lemma memcpy_inside (m : Int → Nat) (dst src : Int) (n : Nat) (x : Int)
    (h1 : dst ≤ x) (h2 : x < dst + n) :
    memcpy m dst src n x = m (src + (x - dst)) := by
  simp only [memcpy]
  rw [if_pos ⟨h1, h2⟩]

lemma memcpy_outside (m : Int → Nat) (dst src : Int) (n : Nat) (x : Int)
    (hx : x < dst ∨ dst + n ≤ x) : memcpy m dst src n x = m x := by
  simp only [memcpy]
  rw [if_neg (by omega)]

lemma memset_inside (m : Int → Nat) (a : Int) (c n : Nat) (x : Int)
    (h1 : a ≤ x) (h2 : x < a + n) : memset m a c n x = c % 256 := by
  simp only [memset]
  rw [if_pos ⟨h1, h2⟩]

lemma malloc_fst_start_end (s : AllocState) (n : Nat) :
    (malloc s n).1.start_addr = s.start_addr ∧
      (malloc s n).1.end_addr = s.end_addr := by
  unfold malloc
  split_ifs <;> simp

lemma malloc_fst_bounds (s : AllocState) (n : Nat) (h : Inv s)
    (hfree : 0 ≤ s.free_addr)
    (hsum : s.free_addr + padding s + (total_size n : Int) < 2 ^ 63) :
    Inv (malloc s n).1 ∧ s.free_addr ≤ (malloc s n).1.free_addr := by
  have hpad := padding_nonneg s
  have hw : new_free_addr s n = s.free_addr + padding s + (total_size n : Int) := by
    unfold new_free_addr
    exact wrapSigned_eq_self _ (by omega) hsum
  unfold malloc Inv at *
  split_ifs <;> simp_all <;> omega

lemma calloc_fst_addrs (s : AllocState) (n m : Nat) :
    (calloc s n m).1.free_addr = (malloc s ((n * m) % SIZE_MOD)).1.free_addr ∧
      (calloc s n m).1.start_addr =
        (malloc s ((n * m) % SIZE_MOD)).1.start_addr ∧
      (calloc s n m).1.end_addr = (malloc s ((n * m) % SIZE_MOD)).1.end_addr := by
  unfold calloc
  rcases hm : (malloc s ((n * m) % SIZE_MOD)).2 <;> simp [hm]

lemma realloc_fst_bounds (s : AllocState) (q : Option Int) (k : Nat)
    (h : Inv s) (hfree : 0 ≤ s.free_addr)
    (hsum : s.free_addr + padding s + (total_size k : Int) < 2 ^ 63) :
    Inv (realloc s q k).1 ∧ s.free_addr ≤ (realloc s q k).1.free_addr := by
  rcases q with _ | p
  · exact malloc_fst_bounds s k h hfree hsum
  · simp only [realloc]
    split_ifs with h0 h1
    · exact ⟨h, le_rfl⟩
    · exact ⟨h, le_rfl⟩
    · rcases hm : (malloc s k).2 with _ | np <;> simp only [hm]
      · exact malloc_fst_bounds s k h hfree hsum
      · have hb := malloc_fst_bounds s k h hfree hsum
        unfold Inv at *
        simp only []
        exact ⟨⟨hb.1.1, hb.1.2⟩, hb.2⟩

/-! ### The claims -/

/-- Claim C1: every successful `malloc` returns a payload address that is a
multiple of 16; the padding is `16 - ((free_addr + header_size) % 16)`,
normalized from 16 to 0, so `free_addr + padding + header_size` is 16-byte
aligned for every value of the frontier. -/
theorem C1_payload_aligned (s : AllocState) (size : Nat) (p : Int)
    (h : (malloc s size).2 = some p) :
    p % 16 = 0 ∧
      padding s =
        (if 16 - ((s.free_addr + HEADER_SIZE) % 16) = 16 then 0
          else 16 - ((s.free_addr + HEADER_SIZE) % 16)) ∧
      (s.free_addr + padding s + HEADER_SIZE) % 16 = 0 := by
  obtain ⟨-, -, hp, -⟩ := malloc_spec s size p h
  subst hp
  refine ⟨block_ptr_aligned s, rfl, ?_⟩
  have hb := block_ptr_aligned s
  unfold block_ptr at hb
  exact hb

theorem C1_payload_aligned_witness :
    (16 : Int) % 16 = 0 ∧
      padding (initState 0) =
        (if 16 - (((initState 0).free_addr + HEADER_SIZE) % 16) = 16 then 0
          else 16 - (((initState 0).free_addr + HEADER_SIZE) % 16)) ∧
      ((initState 0).free_addr + padding (initState 0) + HEADER_SIZE) % 16 = 0 :=
  C1_payload_aligned (initState 0) 24 16 (by decide)

/-- Claim C3, refuted as stated: for `malloc(2^63)` on a fresh heap the
mathematical `frontier + padding + header_size + size` far exceeds `end`,
yet the call succeeds: the `size_t` sum converts to a negative `intptr_t`,
the signed exhaustion check passes, a header is written (byte 128 appears
at address 15) and the frontier is mutated to `-(2^63) + 16`. -/
theorem C3_exhaustion_counterexample :
    (initState 0).end_addr <
        (initState 0).free_addr + padding (initState 0) + (HEADER_SIZE + 2 ^ 63) ∧
      (malloc (initState 0) (2 ^ 63)).2 = some 16 ∧
      (malloc (initState 0) (2 ^ 63)).1.free_addr = -(2 ^ 63) + 16 ∧
      (malloc (initState 0) (2 ^ 63)).1.mem 15 = 128 ∧
      (initState 0).mem 15 = 0 := by
  decide

/-- Claim C3 (amended): when the computed `new_free_addr` — the `size_t`
sum `frontier + padding + header_size + size` converted to the signed
`intptr_t` — exceeds `end`, `malloc` returns `NULL` with the state
completely unchanged, and repeating the identical call returns `NULL`
again with no side effects.  (When the sum stays within the `intptr_t`
range this computed value equals the mathematical sum, recovering the
original reading of the claim.) -/
theorem C3_exhaustion_no_side_effects (s : AllocState) (size : Nat)
    (h0 : size ≠ 0) (h : s.end_addr < new_free_addr s size) :
    malloc s size = (s, none) ∧
      malloc (malloc s size).1 size = ((malloc s size).1, none) := by
  have h1 : malloc s size = (s, none) := by
    unfold malloc
    rw [if_neg h0, if_pos h]
  refine ⟨h1, ?_⟩
  rw [h1]
  exact h1

theorem C3_exhaustion_witness :
    malloc exFull 100 = (exFull, none) ∧
      malloc (malloc exFull 100).1 100 = ((malloc exFull 100).1, none) :=
  C3_exhaustion_no_side_effects exFull 100 (by decide) (by decide)

/-- Claim C6: `realloc(ptr, size)` with non-null `ptr` and
`0 < size ≤ old_size` returns exactly `ptr`, with the whole allocator state
(header, memory, frontier) unchanged. -/
theorem C6_realloc_shrink_identity (s : AllocState) (p : Int) (size : Nat)
    (h0 : size ≠ 0) (hle : size ≤ old_size s p) :
    realloc s (some p) size = (s, some p) := by
  simp only [realloc]
  rw [if_neg h0, if_pos hle]

theorem C6_realloc_shrink_witness :
    realloc exSt1 (some 16) 20 = (exSt1, some 16) :=
  C6_realloc_shrink_identity exSt1 16 20 (by decide) (by decide)

/-- Claim C9: `free` leaves the entire allocator state unchanged for every
pointer, and `free(NULL)` is a no-op. -/
theorem C9_free_is_noop (s : AllocState) (ptr : Option Int) :
    free s ptr = s ∧ free s none = s :=
  ⟨rfl, rfl⟩

/-- Claim C10: whenever `nmemb * size` taken modulo `2^64` is zero —
including `nmemb = 0`, `size = 0`, and overflowing pairs such as
`2^32 * 2^32` — `calloc` returns `NULL` and leaves the state unchanged,
because the wrapped total of 0 makes `malloc` return `NULL`. -/
theorem C10_calloc_wrapped_product_null (s : AllocState) (nmemb size : Nat)
    (h : (nmemb * size) % SIZE_MOD = 0) : calloc s nmemb size = (s, none) := by
  unfold calloc
  rw [h]
  simp [malloc]

theorem C10_calloc_wrapped_product_witness :
    calloc (initState 0) (2 ^ 32) (2 ^ 32) = (initState 0, none) :=
  C10_calloc_wrapped_product_null (initState 0) (2 ^ 32) (2 ^ 32) (by decide)

/-- Claim C2, refuted as stated: with `s1 = 2^64 - 1` the `size_t` total
`size + sizeof(header_s)` wraps to 7, so the first `malloc` succeeds
(payload at 16) while bumping the frontier only to 15; the second `malloc`
succeeds with its header at 24 = 32 - 8, which lies inside the first
block's claimed payload extent `[16, 16 + (2^64 - 1))` — the extents
overlap. -/
theorem C2_counterexample :
    (malloc (initState 0) (2 ^ 64 - 1)).2 = some 16 ∧
      (malloc (malloc (initState 0) (2 ^ 64 - 1)).1 16).2 = some 32 ∧
      (16 : Int) ≤ 32 - HEADER_SIZE ∧ (32 : Int) - HEADER_SIZE < 16 + (2 ^ 64 - 1) := by
  decide

/-- Claim C2 (amended): for two successful allocations where the first
requested size does not wrap the `size_t` total (`s1 + header_size < 2^64`)
and the first call's frontier sum stays within the signed `intptr_t` range
(as in every execution that does not corrupt the frontier — after a
wrapped, negative frontier the program's next header store faults), and
the second is issued from any state whose frontier is at least the
frontier left by the first, the first block's header-plus-payload extent
ends before the second block's header begins: `p1 + s1 + header_size ≤ p2`,
so the extents `[p1 - hs, p1 + s1)` and `[p2 - hs, p2 + s2)` are
disjoint. -/
theorem C2_blocks_disjoint (s t : AllocState) (s1 s2 : Nat) (p1 p2 : Int)
    (hw : s1 + HEADER_SIZE < SIZE_MOD)
    (hlo : -(2 ^ 63) ≤ s.free_addr)
    (hhi : s.free_addr + padding s + ((s1 : Int) + HEADER_SIZE) < 2 ^ 63)
    (h1 : (malloc s s1).2 = some p1)
    (hmono : (malloc s s1).1.free_addr ≤ t.free_addr)
    (h2 : (malloc t s2).2 = some p2) :
    p1 + s1 + HEADER_SIZE ≤ p2 := by
  obtain ⟨-, -, hp1, hs1⟩ := malloc_spec s s1 p1 h1
  obtain ⟨-, -, hp2, -⟩ := malloc_spec t s2 p2 h2
  have hpad := padding_nonneg s
  have hpadt := padding_nonneg t
  have ht : total_size s1 = s1 + HEADER_SIZE := Nat.mod_eq_of_lt hw
  have hnw : new_free_addr s s1 = s.free_addr + padding s + ((s1 : Int) + HEADER_SIZE) := by
    unfold new_free_addr
    rw [ht]
    push_cast
    exact wrapSigned_eq_self _ (by omega) (by push_cast at hhi; omega)
  rw [hs1] at hmono
  simp only [] at hmono
  rw [hnw] at hmono
  subst hp1 hp2
  unfold block_ptr
  omega

theorem C2_blocks_disjoint_witness : (16 : Int) + 24 + HEADER_SIZE ≤ 48 :=
  C2_blocks_disjoint (initState 0) exSt1 24 16 16 48 (by decide) (by decide)
    (by decide) (by decide) (by decide) (by decide)

/-- Claim C5: `realloc(ptr, size)` with non-null `ptr` and
`size > old_size`, when the internal `malloc` fails, returns `NULL` with the
whole state — header, payload bytes, frontier — unchanged: no copy and no
free happen on the failure path. -/
theorem C5_realloc_grow_failure (s : AllocState) (p : Int) (size : Nat)
    (hgrow : old_size s p < size)
    (hfail : (malloc s size).2 = none) :
    realloc s (some p) size = (s, none) := by
  have h0 : size ≠ 0 := by omega
  have hs := malloc_none s size hfail
  simp only [realloc]
  rw [if_neg h0, if_neg (Nat.not_le.mpr hgrow), hs]

theorem C5_realloc_grow_failure_witness :
    realloc exGrow (some 16) 100 = (exGrow, none) :=
  C5_realloc_grow_failure exGrow 16 100 (by decide) (by decide)

/-- Claim C7, refuted as stated: `malloc(2^63)` from the freshly
initialized heap (which satisfies `start ≤ frontier ≤ end`) is a defined,
successful call that sets the frontier to the negative `-(2^63) + 16`:
the frontier moves backward and drops below `start_addr`, falsifying both
the invariant and monotonicity. -/
theorem C7_frontier_monotone_counterexample :
    Inv (initState 0) ∧ (malloc (initState 0) (2 ^ 63)).2 = some 16 ∧
      (malloc (initState 0) (2 ^ 63)).1.free_addr < (initState 0).free_addr ∧
      (malloc (initState 0) (2 ^ 63)).1.free_addr <
        (malloc (initState 0) (2 ^ 63)).1.start_addr := by
  refine ⟨⟨?_, ?_⟩, ?_, ?_, ?_⟩ <;> decide

/-- Claim C7 (amended): after initialization `start ≤ frontier ≤ end`
holds; and from any state satisfying the invariant with a valid
(nonnegative) heap base, every public operation (`malloc`, `calloc`,
`realloc`, `free`) whose internal `size_t` frontier sum stays within the
signed `intptr_t` range — as holds for every non-adversarial request —
preserves the invariant and never moves the frontier backward. -/
theorem C7_frontier_monotone_invariant (heap : Int) (s : AllocState)
    (n m k : Nat) (q : Option Int) (h : Inv s) (hstart : 0 ≤ s.start_addr)
    (hn : s.free_addr + padding s + (total_size n : Int) < 2 ^ 63)
    (hnm : s.free_addr + padding s + (total_size ((n * m) % SIZE_MOD) : Int) < 2 ^ 63)
    (hk : s.free_addr + padding s + (total_size k : Int) < 2 ^ 63) :
    Inv (initState heap) ∧
      (Inv (malloc s n).1 ∧ s.free_addr ≤ (malloc s n).1.free_addr) ∧
      (Inv (calloc s n m).1 ∧ s.free_addr ≤ (calloc s n m).1.free_addr) ∧
      (Inv (realloc s q k).1 ∧ s.free_addr ≤ (realloc s q k).1.free_addr) ∧
      (Inv ( free s q) ∧ s.free_addr ≤ ( free s q).free_addr) := by
  have hfree : 0 ≤ s.free_addr := le_trans hstart h.1
  refine ⟨⟨le_rfl, ?_⟩, malloc_fst_bounds s n h hfree hn, ?_,
    realloc_fst_bounds s q k h hfree hk, h, le_rfl⟩
  · show heap ≤ heap + (HEAP_SIZE : Int)
    omega
  · obtain ⟨e1, e2, e3⟩ := calloc_fst_addrs s n m
    have hb := malloc_fst_bounds s ((n * m) % SIZE_MOD) h hfree hnm
    unfold Inv at *
    rw [e1, e2, e3]
    exact hb

theorem C7_frontier_monotone_witness :
    Inv (initState 0) ∧ Inv (malloc (initState 0) 24).1 ∧
      (initState 0).free_addr ≤ (malloc (initState 0) 24).1.free_addr := by
  have h0 : Inv (initState 0) := ⟨by decide, by decide⟩
  exact ⟨(C7_frontier_monotone_invariant 0 (initState 0) 24 2 3 none h0
      (by decide) (by decide) (by decide) (by decide)).1,
    (C7_frontier_monotone_invariant 0 (initState 0) 24 2 3 none h0
      (by decide) (by decide) (by decide) (by decide)).2.1.1,
    (C7_frontier_monotone_invariant 0 (initState 0) 24 2 3 none h0
      (by decide) (by decide) (by decide) (by decide)).2.1.2⟩

/-- Claim C8: `calloc` computes the `size_t` total `nmemb * size` and
delegates it to `malloc`; on a non-null result every one of the total's
bytes of the payload is zero, and on `NULL` no zeroing occurs and the
failure propagates with the state unchanged. -/
theorem C8_calloc_delegates_and_zeroes (s : AllocState) (nmemb size : Nat) :
    (calloc s nmemb size).2 = (malloc s ((nmemb * size) % SIZE_MOD)).2 ∧
      (∀ p : Int, (calloc s nmemb size).2 = some p →
        ∀ i < (nmemb * size) % SIZE_MOD,
          (calloc s nmemb size).1.mem (p + i) = 0) ∧
      ((calloc s nmemb size).2 = none → (calloc s nmemb size).1 = s) := by
  rcases hm : (malloc s ((nmemb * size) % SIZE_MOD)).2 with _ | q
  · have hn := malloc_none _ _ hm
    refine ⟨?_, ?_, ?_⟩
    · simp [calloc, hm]
    · intro p hp
      simp [calloc, hm] at hp
    · intro _
      simp only [calloc, hm, hn]
  · refine ⟨?_, ?_, ?_⟩
    · simp [calloc, hm]
    · intro p hp i hi
      simp only [calloc, hm, Option.some.injEq] at hp
      subst hp
      simp only [calloc, hm]
      rw [memset_inside _ _ _ _ _ (by omega) (by omega)]
    · intro hcon
      simp [calloc, hm] at hcon

theorem C8_calloc_zero_byte_witness :
    (calloc (initState 0) 3 8).1.mem (16 + 5) = 0 :=
  (C8_calloc_delegates_and_zeroes (initState 0) 3 8).2.1 16 (by decide) 5
    (by decide)

/-- Claim C4: `realloc(ptr, size)` on a valid block (its extent lies below
the frontier) with `size > old_size`, when the internal `malloc` succeeds,
returns a pointer different from `ptr`; exactly `old_size` bytes are copied:
the first `old_size` bytes of the new payload equal the old payload (which
itself is untouched), and the bytes of the new payload past `old_size` keep
whatever was in memory there (the grown tail is not initialized). -/
theorem C4_realloc_grow_copies (s : AllocState) (p : Int) (size : Nat) (q : Int)
    (hvalid : p + old_size s p ≤ s.free_addr)
    (hgrow : old_size s p < size)
    (hsucc : (realloc s (some p) size).2 = some q) :
    q ≠ p ∧
      (∀ i < old_size s p,
        (realloc s (some p) size).1.mem (q + i) = s.mem (p + i) ∧
        (realloc s (some p) size).1.mem (p + i) = s.mem (p + i)) ∧
      (∀ i, old_size s p ≤ i →
        (realloc s (some p) size).1.mem (q + i) = s.mem (q + i)) := by
  have h0 : size ≠ 0 := by omega
  have hH : (HEADER_SIZE : Int) = 8 := rfl
  have hpad := padding_nonneg s
  rcases hm : (malloc s size).2 with _ | np
  · exfalso
    simp only [realloc] at hsucc
    rw [if_neg h0, if_neg (Nat.not_le.mpr hgrow), hm] at hsucc
    simp at hsucc
  · obtain ⟨-, -, hnp, hfst⟩ := malloc_spec s size np hm
    have hre : realloc s (some p) size =
        ({ (malloc s size).1 with
            mem := memcpy (malloc s size).1.mem np p (old_size s p) },
          some np) := by
      simp only [realloc]
      rw [if_neg h0, if_neg (Nat.not_le.mpr hgrow), hm]
    have hq : np = q := by
      rw [hre] at hsucc
      simpa using hsucc
    subst hq
    have hmm : (realloc s (some p) size).1.mem =
        memcpy (malloc s size).1.mem np p (old_size s p) := by
      rw [hre]
    have hmem : (malloc s size).1.mem =
        writeLE s.mem (header_ptr s) HEADER_SIZE size := by
      rw [hfst]
    unfold block_ptr at hnp
    have hhp : header_ptr s = s.free_addr + padding s := rfl
    refine ⟨by omega, ?_, ?_⟩
    · intro i hi
      constructor
      · rw [hmm, memcpy_inside _ _ _ _ _ (by omega) (by omega)]
        have hidx : p + (np + (i : Int) - np) = p + i := by ring
        rw [hidx, hmem, writeLE_outside _ _ _ _ _ (Or.inl (by omega))]
      · rw [hmm, memcpy_outside _ _ _ _ _ (Or.inl (by omega)),
          hmem, writeLE_outside _ _ _ _ _ (Or.inl (by omega))]
    · intro i hi
      rw [hmm, memcpy_outside _ _ _ _ _ (Or.inr (by omega)),
        hmem, writeLE_outside _ _ _ _ _ (Or.inr (by omega))]

theorem C4_realloc_grow_copies_witness :
    (48 : Int) ≠ 16 ∧
      (∀ i < old_size exSt1 16,
        (realloc exSt1 (some 16) 30).1.mem (48 + i) = exSt1.mem (16 + i) ∧
        (realloc exSt1 (some 16) 30).1.mem (16 + i) = exSt1.mem (16 + i)) ∧
      (∀ i, old_size exSt1 16 ≤ i →
        (realloc exSt1 (some 16) 30).1.mem (48 + i) = exSt1.mem (48 + i)) :=
  C4_realloc_grow_copies exSt1 16 30 48 (by decide) (by decide) (by decide)

end PBAlloc
